import Mathlib

/-!
Verification of the subtitle-cue parsing / active-cue lookup logic and the
playback-progress persistence logic of the AniMind web client.

The embedding models the TypeScript sources directly:

* `parseTime`, `parseVTT` and the active-cue lookup come from
  `src/components/VideoModal.tsx` (the same helpers appear verbatim in the
  second player variant, `src/unnamed/part_004`);
* `saveProgress` / `getProgress` come from `src/services/dbService.ts`;
* the subtitle-preference initialisation effects come from both player
  variants.

JavaScript numbers are modelled exactly: `JSNum` is NaN, signed infinity, or
an exact rational (`ℚ`).  Floating-point rounding of the host is idealised
away (every decimal literal is represented exactly), which is the standard
shallow embedding of the JS number semantics used here; none of the verified
properties depend on rounding.  All arithmetic on `ℚ` is routed through
kernel-computable wrappers (`qAdd`, `qMul`, ...) built on `Rat.normalize`, so
that concrete runs of the embedded code can be evaluated by `decide`;
bridging lemmas identify the wrappers with the ordinary `ℚ` operations.
-/

namespace AniMind

/-- Kernel-computable construction of the rational `n / d`.  Equal to
`(n : ℚ) / d` for `d ≠ 0` (see `qFrac_eq`) and to `0` for `d = 0`. -/
def qFrac (n : ℤ) (d : ℕ) : ℚ :=
  if h : d = 0 then 0 else Rat.normalize n d h

/-- Kernel-computable cast `ℕ → ℚ`. -/
def qOfNat (n : ℕ) : ℚ := qFrac n 1

/-- Kernel-computable negation on `ℚ`. -/
def qNegQ (a : ℚ) : ℚ := qFrac (-a.num) a.den

/-- Kernel-computable addition on `ℚ`. -/
def qAdd (a b : ℚ) : ℚ := qFrac (a.num * b.den + b.num * a.den) (a.den * b.den)

/-- Kernel-computable multiplication on `ℚ`. -/
def qMul (a b : ℚ) : ℚ := qFrac (a.num * b.num) (a.den * b.den)

/-- Kernel-computable `≤` test on `ℚ` (cross multiplication). -/
def qLeB (a b : ℚ) : Bool := decide (a.num * b.den ≤ b.num * a.den)

/-- Kernel-computable `<` test on `ℚ` (cross multiplication). -/
def qLtB (a b : ℚ) : Bool := decide (a.num * b.den < b.num * a.den)

/-- A JavaScript number: NaN, `±Infinity` (`inf true` is `-Infinity`), or an
exact rational value. -/
inductive JSNum where
  | nan : JSNum
  | inf : Bool → JSNum
  | num : ℚ → JSNum
deriving DecidableEq

/-- JS `+` on numbers: NaN is absorbing, infinities of opposite sign give
NaN. -/
def jsAdd : JSNum → JSNum → JSNum
  | .nan, _ => .nan
  | _, .nan => .nan
  | .inf a, .inf b => if a = b then .inf a else .nan
  | .inf a, .num _ => .inf a
  | .num _, .inf b => .inf b
  | .num p, .num q => .num (qAdd p q)

/-- JS `*` on numbers: NaN is absorbing, `±Infinity * 0` is NaN, otherwise
infinities follow the sign rule. -/
def jsMul : JSNum → JSNum → JSNum
  | .nan, _ => .nan
  | _, .nan => .nan
  | .inf a, .inf b => .inf (a != b)
  | .inf a, .num q => if q = 0 then .nan else .inf (a != qLtB q 0)
  | .num q, .inf b => if q = 0 then .nan else .inf (b != qLtB q 0)
  | .num p, .num q => .num (qMul p q)

/-- JS `<=`: any comparison with NaN is false. -/
def jsLe : JSNum → JSNum → Bool
  | .nan, _ => false
  | _, .nan => false
  | .inf true, _ => true
  | _, .inf false => true
  | .inf false, _ => false
  | .num _, .inf true => false
  | .num p, .num q => qLeB p q

/-- JS `<`: any comparison with NaN is false. -/
def jsLt : JSNum → JSNum → Bool
  | .nan, _ => false
  | _, .nan => false
  | .inf true, .inf true => false
  | .inf true, _ => true
  | _, .inf true => false
  | .inf false, _ => false
  | .num _, .inf false => true
  | .num p, .num q => qLtB p q

/-- JS `>=`, expressed through `<=` with the arguments swapped (both are
false on NaN). -/
def jsGe (a b : JSNum) : Bool := jsLe b a

/-- The ASCII whitespace characters stripped by JS `trim` /
`parseInt` / `parseFloat` (the exotic Unicode space characters are not
produced by any input of this code base and are omitted). -/
def jsWhitespaceChar (c : Char) : Bool :=
  c = ' ' || c = '\t' || c = '\n' || c = '\r' || c = '\x0c' || c = '\x0b'

/-- Model of JS `String.prototype.trim`. -/
def jsTrim (s : String) : String :=
  String.mk (((s.data.dropWhile jsWhitespaceChar).reverse.dropWhile
    jsWhitespaceChar).reverse)

/-- Worker for `jsSplit`: scans the character list left to right; `skip`
counts characters of an already-matched separator occurrence that are still
to be consumed, `acc` is the current field (reversed). -/
def jsSplitGo (sep : List Char) : List Char → ℕ → List Char → List (List Char)
  | [], _, acc => [acc.reverse]
  | _ :: rest, k + 1, acc => jsSplitGo sep rest k acc
  | c :: rest, 0, acc =>
    if sep.isPrefixOf (c :: rest) then
      acc.reverse :: jsSplitGo sep rest (sep.length - 1) []
    else
      jsSplitGo sep rest 0 (c :: acc)

/-- Model of JS `String.prototype.split` with a string separator: splits at
every (leftmost, non-overlapping) occurrence, keeping empty fields; an empty
separator splits into single characters. -/
def jsSplit (s sep : String) : List String :=
  match sep.data with
  | [] => s.data.map (fun c => String.mk [c])
  | c :: cs => (jsSplitGo (c :: cs) s.data 0 []).map String.mk

/-- Value and length of the longest prefix of decimal digits, together with
the rest of the input. -/
def takeDigits : List Char → ℕ × ℕ × List Char
  | [] => (0, 0, [])
  | c :: rest =>
    if c.isDigit then
      let (v, n, r) := takeDigits rest
      ((c.toNat - 48) * 10 ^ n + v, n + 1, r)
    else (0, 0, c :: rest)

/-- Numeric value of a hexadecimal digit character, if any. -/
def hexDigitVal (c : Char) : Option ℕ :=
  if c.isDigit then some (c.toNat - 48)
  else if 'a' ≤ c ∧ c ≤ 'f' then some (c.toNat - 87)
  else if 'A' ≤ c ∧ c ≤ 'F' then some (c.toNat - 55)
  else none

/-- Value and length of the longest prefix of hexadecimal digits, together
with the rest of the input. -/
def takeHexDigits : List Char → ℕ × ℕ × List Char
  | [] => (0, 0, [])
  | c :: rest =>
    match hexDigitVal c with
    | some d =>
      let (v, n, r) := takeHexDigits rest
      (d * 16 ^ n + v, n + 1, r)
    | none => (0, 0, c :: rest)

/-- Model of JS `parseInt(string)` (radix argument omitted, as in the
source): strip leading whitespace, optional sign, optional `0x`/`0X` prefix
switching to base 16, then the longest digit prefix; NaN when there is no
digit. -/
def jsParseInt (s : String) : JSNum :=
  let cs0 := s.data.dropWhile jsWhitespaceChar
  let sgn :=
    match cs0 with
    | '-' :: r => (true, r)
    | '+' :: r => (false, r)
    | _ => (false, cs0)
  let digits :=
    match sgn.2 with
    | '0' :: 'x' :: r => takeHexDigits r
    | '0' :: 'X' :: r => takeHexDigits r
    | cs => takeDigits cs
  if digits.2.1 = 0 then JSNum.nan
  else JSNum.num (if sgn.1 then qNegQ (qOfNat digits.1) else qOfNat digits.1)

/-- Exponent part of a JS float literal (`e`/`E` already consumed): optional
sign then digits; a missing digit sequence makes the exponent part invalid,
in which case JS ignores it (exponent 0). -/
def parseExponent (r : List Char) : ℤ :=
  let sgn :=
    match r with
    | '-' :: rr => (true, rr)
    | '+' :: rr => (false, rr)
    | _ => (false, r)
  let digits := takeDigits sgn.2
  if digits.2.1 = 0 then 0
  else if sgn.1 then -(digits.1 : ℤ) else (digits.1 : ℤ)

/-- Model of JS `parseFloat`: strip leading whitespace, optional sign, then
the longest prefix that is `Infinity` or a decimal literal
`digits [. digits] [e/E sign digits]` (one of the two digit groups must be
non-empty); NaN when no such prefix exists. -/
def jsParseFloat (s : String) : JSNum :=
  let cs0 := s.data.dropWhile jsWhitespaceChar
  let sgn :=
    match cs0 with
    | '-' :: r => (true, r)
    | '+' :: r => (false, r)
    | _ => (false, cs0)
  let neg := sgn.1
  if "Infinity".data.isPrefixOf sgn.2 then JSNum.inf neg
  else
    let (ip, ipCnt, cs2) := takeDigits sgn.2
    let (fp, fpCnt, cs3) :=
      match cs2 with
      | '.' :: r => takeDigits r
      | _ => ((0 : ℕ), (0 : ℕ), cs2)
    if ipCnt = 0 ∧ fpCnt = 0 then JSNum.nan
    else
      let ex : ℤ :=
        match cs3 with
        | 'e' :: r => parseExponent r
        | 'E' :: r => parseExponent r
        | _ => 0
      let mant : ℚ := qAdd (qOfNat ip) (qFrac fp (10 ^ fpCnt))
      let v : ℚ :=
        if ex < 0 then qMul mant (qFrac 1 (10 ^ (-ex).toNat))
        else qMul mant (qOfNat (10 ^ ex.toNat))
      JSNum.num (if neg then qNegQ v else v)

/-- A parsed subtitle cue (`SubtitleCue` in `VideoModal.tsx`). -/
structure SubtitleCue where
  start : JSNum
  «end» : JSNum
  text : String
deriving DecidableEq

/-- `parseTime` from `VideoModal.tsx`: split on `:`; three segments are
`h:m:s` (`parseInt`, `parseInt`, `parseFloat`), two segments are `m:s`;
any other segment count leaves the initial value `0`. -/
def parseTime (timeStr : String) : JSNum :=
  let parts := jsSplit timeStr ":"
  if parts.length = 3 then
    jsAdd (jsAdd (jsMul (jsParseInt (parts.getD 0 "")) (JSNum.num 3600))
                 (jsMul (jsParseInt (parts.getD 1 "")) (JSNum.num 60)))
          (jsParseFloat (parts.getD 2 ""))
  else if parts.length = 2 then
    jsAdd (jsMul (jsParseInt (parts.getD 0 "")) (JSNum.num 60))
          (jsParseFloat (parts.getD 1 ""))
  else JSNum.num 0

/-- The inner loop of `parseVTT` that accumulates caption text until a blank
line: `text += (text ? '\n' : '') + lines[i]`.  Returns the accumulated text
and the remaining lines (starting at the blank line, if any). -/
def collectText : List String → String → String × List String
  | [], acc => (acc, [])
  | l :: rest, acc =>
    if jsTrim l = "" then (acc, l :: rest)
    else collectText rest (if acc = "" then l else acc ++ "\n" ++ l)

/-- The `while` loop of `parseVTT`, with an explicit iteration bound (each
iteration consumes at least one line, so `fuel = lines.length` is enough). -/
def parseVTTGo : ℕ → List String → List SubtitleCue
  | 0, _ => []
  | _ + 1, [] => []
  | fuel + 1, l :: rest =>
    let line := jsTrim l
    if (jsSplit line "-->").length ≠ 1 then
      let parts := (jsSplit line "-->").map jsTrim
      let startT := parseTime (parts.getD 0 "")
      let endT := parseTime (parts.getD 1 "")
      let tc := collectText rest ""
      let tail := parseVTTGo fuel tc.2
      if tc.1 ≠ "" then ⟨startT, endT, jsTrim tc.1⟩ :: tail else tail
    else
      parseVTTGo fuel rest

/-- `parseVTT` from `VideoModal.tsx`: split the document into lines, scan
for timing lines containing `-->`, parse both timestamps with `parseTime`,
collect the following non-blank lines as the cue text, and emit a cue only
when the text is non-empty. -/
def parseVTT (content : String) : List SubtitleCue :=
  let lines := jsSplit content "\n"
  parseVTTGo lines.length lines

/-- The active-cue predicate of `updateProgress` in `VideoModal.tsx`:
`currTime >= cue.start && currTime <= cue.end`. -/
def cueMatches (t : JSNum) (cue : SubtitleCue) : Bool :=
  jsGe t cue.start && jsLe t cue.«end»

/-- The active-cue lookup of `updateProgress`:
`subtitleCues.find(cue => currTime >= cue.start && currTime <= cue.end)`. -/
def findActiveCue (cues : List SubtitleCue) (t : JSNum) : Option SubtitleCue :=
  cues.find? (cueMatches t)

/-- The displayed subtitle text: `currentCue ? currentCue.text : ''`,
projected to an `Option` (`none` = no active cue). -/
def activeCueText (cues : List SubtitleCue) (t : JSNum) : Option String :=
  (findActiveCue cues t).map SubtitleCue.text

/-- Concrete document with overlapping cues `[0,5] → "A"` and
`[2,6] → "B"`. -/
def overlapDoc : String :=
  "00:00:00.000 --> 00:00:05.000\nA\n\n00:00:02.000 --> 00:00:06.000\nB"

/-- Concrete three-block document whose second block has a non-numeric
timestamp segment (`aa`). -/
def malformedDoc : String :=
  "00:00:01.000 --> 00:00:02.000\nA\n\n00:00:aa.000 --> 00:00:04.000\nB\n\n00:00:05.000 --> 00:00:06.000\nC"

/-- Concrete one-block document whose end timestamp precedes its start. -/
def invertedDoc : String :=
  "00:00:05.000 --> 00:00:01.000\nhello"

/-- `DEV_USER_ID` from `dbService.ts`. -/
def devUserId : String := "dev-user-id"

/-- `LOCAL_PROGRESS_KEY` from `dbService.ts`. -/
def localProgressKeyBase : String := "animind_dev_progress"

/-- The localStorage key used by the dev-user mock path:
`` `${LOCAL_PROGRESS_KEY}_${animeId}_${episodeIndex}` ``. -/
def localProgressKey (animeId : String) (episodeIndex : ℤ) : String :=
  localProgressKeyBase ++ "_" ++ animeId ++ "_" ++ toString episodeIndex

/-- localStorage model: an association list with unique keys. -/
def kvGet (kv : List (String × String)) (k : String) : Option String :=
  (kv.find? (fun p => p.1 == k)).map (fun p => p.2)

/-- `localStorage.setItem`: replaces any existing entry for the key. -/
def kvSet (kv : List (String × String)) (k v : String) :
    List (String × String) :=
  (k, v) :: kv.filter (fun p => !(p.1 == k))

/-- Number of stored entries under a key. -/
def kvCount (kv : List (String × String)) (k : String) : ℕ :=
  (kv.filter (fun p => p.1 == k)).length

/-- One row of the remote `progress` table of `dbService.ts`. -/
structure ProgressRow where
  user_id : String
  anime_id : String
  episode_index : ℤ
  timestamp : JSNum
deriving DecidableEq

/-- The upsert conflict test `onConflict: 'user_id, anime_id,
episode_index'`. -/
def rowKeyMatches (u a : String) (e : ℤ) (r : ProgressRow) : Bool :=
  r.user_id == u && r.anime_id == a && r.episode_index == e

/-- Supabase `upsert` on the `progress` table: replace the row with the same
composite key if present, otherwise insert. -/
def tableUpsert (t : List ProgressRow) (r : ProgressRow) : List ProgressRow :=
  if t.any (rowKeyMatches r.user_id r.anime_id r.episode_index) then
    t.map (fun x =>
      if rowKeyMatches r.user_id r.anime_id r.episode_index x then r else x)
  else t ++ [r]

/-- Supabase `select ... .single()` on the `progress` table (the composite
key is unique, so the first match is the row). -/
def tableLookup (t : List ProgressRow) (u a : String) (e : ℤ) :
    Option ProgressRow :=
  t.find? (rowKeyMatches u a e)

/-- Number of rows of the table with the given composite key. -/
def tableCount (t : List ProgressRow) (u a : String) (e : ℤ) : ℕ :=
  (t.filter (rowKeyMatches u a e)).length

/-- The two storage backends touched by the progress operations: the
browser's localStorage (dev-user mock path) and the remote `progress`
table. -/
structure ProgressStore where
  localKV : List (String × String)
  table : List ProgressRow

/-- The store with no saved progress at all. -/
def emptyStore : ProgressStore := ⟨[], []⟩

/-- Number of iterations needed to divide out a prime factor; fuel-bounded
so that it is kernel-computable. -/
def countFactorsGo (p : ℕ) : ℕ → ℕ → ℕ
  | 0, _ => 0
  | fuel + 1, n => if 2 ≤ p ∧ 0 < n ∧ n % p = 0 then countFactorsGo p fuel (n / p) + 1 else 0

/-- Multiplicity of `p` in `n`. -/
def countFactors (p n : ℕ) : ℕ := countFactorsGo p n n

/-- Decimal digit string of `n`, left-padded with zeros to width `w`. -/
def padZeros (w : ℕ) (n : ℕ) : String :=
  let s := toString n
  String.mk (List.replicate (w - s.length) '0') ++ s

/-- Decimal rendering of a rational with terminating decimal expansion, as
produced by JS `Number.prototype.toString` for such values (every binary
float has one, so this covers all values reachable in the source; the final
branch for a non-terminating expansion is unreachable from JS numbers and
renders as a plain fraction). -/
def ratDecimalString (q : ℚ) : String :=
  let a := countFactors 2 q.den
  let b := countFactors 5 q.den
  let k := max a b
  if q.den = 2 ^ a * 5 ^ b then
    let scaled := q.num.natAbs * ((10 ^ k) / q.den)
    let ipart := scaled / 10 ^ k
    let fpart := scaled % 10 ^ k
    let sgn := if q.num < 0 then "-" else ""
    if fpart = 0 then sgn ++ toString ipart
    else sgn ++ toString ipart ++ "." ++ padZeros k fpart
  else toString q.num ++ "/" ++ toString q.den

/-- Model of JS `Number.prototype.toString` (used by
`timestamp.toString()` in the dev-user save path). -/
def jsNumToString : JSNum → String
  | .nan => "NaN"
  | .inf true => "-Infinity"
  | .inf false => "Infinity"
  | .num q => ratDecimalString q

/-- `saveProgress` from `dbService.ts`: the dev user writes
`timestamp.toString()` to localStorage under `localProgressKey`; any other
user upserts a row of the remote `progress` table keyed by
`(user_id, anime_id, episode_index)`.  No validation or clamping of
`timestamp` is performed. -/
def saveProgress (store : ProgressStore) (userId animeId : String)
    (episodeIndex : ℤ) (timestamp : JSNum) : ProgressStore :=
  if userId = devUserId then
    { store with
        localKV := kvSet store.localKV (localProgressKey animeId episodeIndex)
          (jsNumToString timestamp) }
  else
    { store with
        table := tableUpsert store.table
          ⟨userId, animeId, episodeIndex, timestamp⟩ }

/-- `getProgress` from `dbService.ts`.  The dev user reads localStorage:
a missing or empty value gives `0`, otherwise `parseFloat` of the stored
string.  Any other user queries the remote table; `readFails` models a
failed network read (the code's `error`/`catch` paths, which return `0`),
a missing row gives `0`, and a present row gives its stored timestamp. -/
def getProgress (store : ProgressStore) (readFails : Bool)
    (userId animeId : String) (episodeIndex : ℤ) : JSNum :=
  if userId = devUserId then
    match kvGet store.localKV (localProgressKey animeId episodeIndex) with
    | none => JSNum.num 0
    | some s => if s = "" then JSNum.num 0 else jsParseFloat s
  else if readFails then JSNum.num 0
  else
    match tableLookup store.table userId animeId episodeIndex with
    | none => JSNum.num 0
    | some r => r.timestamp

/-- The seek position applied by the progress-restore effect of the player
(`src/unnamed/part_004`): `timestamp > 0 ? timestamp : 0`. -/
def restoreSeekTime (store : ProgressStore) (readFails : Bool)
    (userId animeId : String) (episodeIndex : ℤ) : JSNum :=
  let t := getProgress store readFails userId animeId episodeIndex
  if jsLt (JSNum.num 0) t then t else JSNum.num 0

/-- Observation of the record stored for a composite key: the dev user's
record is the localStorage string, any other user's record is the table
row's timestamp. -/
def storedRecord (store : ProgressStore) (u a : String) (e : ℤ) :
    Option (JSNum ⊕ String) :=
  if u = devUserId then
    (kvGet store.localKV (localProgressKey a e)).map Sum.inr
  else
    (tableLookup store.table u a e).map (fun r => Sum.inl r.timestamp)

/-- The value `saveProgress` writes for a user: the dev user stores the
`toString` rendering, any other user stores the number itself. -/
def writeValue (u : String) (v : JSNum) : JSNum ⊕ String :=
  if u = devUserId then Sum.inr (jsNumToString v) else Sum.inl v

/-- Number of records stored for a composite key. -/
def recordCount (store : ProgressStore) (u a : String) (e : ℤ) : ℕ :=
  if u = devUserId then kvCount store.localKV (localProgressKey a e)
  else tableCount store.table u a e

/-- The subtitle track ids configured in `src/components/VideoModal.tsx`
(only the ids are relevant to the preference-initialisation logic). -/
def subtitleTrackIds : List String := ["en", "es", "jp"]

/-- The subtitle track ids configured in `src/unnamed/part_004`. -/
def subtitleTrackIdsP4 : List String := ["en", "jp", "es"]

/-- The subtitle part of the preference-initialisation effect of
`src/components/VideoModal.tsx`: a truthy stored id is applied only when it
is one of the configured track ids; otherwise the current (default)
selection is kept. -/
def applySubtitlePref : Option String → Option String → Option String
  | current, none => current
  | current, some s =>
    if s = "" then current
    else if subtitleTrackIds.contains s then some s
    else current

/-- The subtitle part of the preference-initialisation effect of
`src/unnamed/part_004`: the sentinel `'off'` disables subtitles; otherwise a
truthy stored id is applied only when it is a configured track id. -/
def applySubtitlePrefP4 : Option String → Option String → Option String
  | current, none => current
  | current, some s =>
    if s = "off" then none
    else if s = "" then current
    else if subtitleTrackIdsP4.contains s then some s
    else current

theorem qFrac_eq {d : ℕ} (n : ℤ) (h : d ≠ 0) : qFrac n d = (n : ℚ) / d := by
  unfold qFrac
  rw [dif_neg h, Rat.normalize_eq_mkRat, Rat.mkRat_eq_div]

theorem qAdd_eq (a b : ℚ) : qAdd a b = a + b := by
  unfold qAdd qFrac
  rw [dif_neg (Nat.mul_ne_zero a.den_nz b.den_nz), Rat.add_def]

theorem qMul_eq (a b : ℚ) : qMul a b = a * b := by
  unfold qMul qFrac
  rw [dif_neg (Nat.mul_ne_zero a.den_nz b.den_nz), Rat.mul_def]

theorem qNegQ_eq (a : ℚ) : qNegQ a = -a := by
  unfold qNegQ qFrac
  rw [dif_neg a.den_nz, ← Rat.neg_normalize, Rat.normalize_eq_mkRat, Rat.mkRat_self]

theorem qOfNat_eq (n : ℕ) : qOfNat n = n := by
  unfold qOfNat qFrac
  rw [dif_neg one_ne_zero, Rat.normalize_eq_mkRat, Rat.mkRat_one]
  push_cast
  rfl

theorem qLeB_iff (a b : ℚ) : qLeB a b = true ↔ a ≤ b := by
  rw [qLeB, decide_eq_true_iff, ← Rat.le_def]

theorem qLtB_iff (a b : ℚ) : qLtB a b = true ↔ a < b := by
  rw [qLtB, decide_eq_true_iff, ← Rat.lt_def]

theorem jsAdd_num (p q : ℚ) : jsAdd (JSNum.num p) (JSNum.num q) = JSNum.num (p + q) := by
  rw [show jsAdd (JSNum.num p) (JSNum.num q) = JSNum.num (qAdd p q) from rfl, qAdd_eq]

theorem jsMul_num (p q : ℚ) : jsMul (JSNum.num p) (JSNum.num q) = JSNum.num (p * q) := by
  rw [show jsMul (JSNum.num p) (JSNum.num q) = JSNum.num (qMul p q) from rfl, qMul_eq]

theorem jsLe_num_iff (p q : ℚ) : jsLe (JSNum.num p) (JSNum.num q) = true ↔ p ≤ q := by
  rw [show jsLe (JSNum.num p) (JSNum.num q) = qLeB p q from rfl, qLeB_iff]

theorem jsLt_num_iff (p q : ℚ) : jsLt (JSNum.num p) (JSNum.num q) = true ↔ p < q := by
  rw [show jsLt (JSNum.num p) (JSNum.num q) = qLtB p q from rfl, qLtB_iff]

theorem find?_eq_some_first {α} (p : α → Bool) (l : List α) (c : α)
    (h : l.find? p = some c) :
    p c = true ∧ ∃ pre post, l = pre ++ c :: post ∧ ∀ x ∈ pre, p x = false := by
  induction l with
  | nil => simp at h
  | cons a l ih =>
    by_cases hpa : p a = true
    · rw [List.find?_cons_of_pos _ hpa] at h
      cases h
      exact ⟨hpa, [], l, rfl, by simp⟩
    · have hpa' : ¬ p a := hpa
      rw [List.find?_cons_of_neg _ hpa'] at h
      obtain ⟨hc, pre, post, hl, hpre⟩ := ih h
      refine ⟨hc, a :: pre, post, by rw [hl]; rfl, ?_⟩
      intro x hx
      rcases List.mem_cons.mp hx with rfl | hx
      · exact Bool.eq_false_iff.mpr hpa
      · exact hpre x hx

/-- C3: for every timestamp string, the timestamp-to-seconds conversion
counts colon-separated segments: with exactly 3 segments `h:m:s` it returns
`h*3600 + m*60 + s`, and with exactly 2 segments `m:s` it returns
`m*60 + s`; the final segment is read by `parseFloat`, so a fractional part
is preserved in the result. -/
theorem parseTime_segment_rule (s : String) :
    ((jsSplit s ":").length = 3 →
      ∀ h m sec : ℚ,
        jsParseInt ((jsSplit s ":").getD 0 "") = JSNum.num h →
        jsParseInt ((jsSplit s ":").getD 1 "") = JSNum.num m →
        jsParseFloat ((jsSplit s ":").getD 2 "") = JSNum.num sec →
        parseTime s = JSNum.num (h * 3600 + m * 60 + sec))
    ∧ ((jsSplit s ":").length = 2 →
      ∀ m sec : ℚ,
        jsParseInt ((jsSplit s ":").getD 0 "") = JSNum.num m →
        jsParseFloat ((jsSplit s ":").getD 1 "") = JSNum.num sec →
        parseTime s = JSNum.num (m * 60 + sec)) := by
  constructor
  · intro hlen h m sec h1 h2 h3
    simp only [parseTime]
    rw [if_pos hlen, h1, h2, h3, jsMul_num, jsMul_num, jsAdd_num, jsAdd_num]
  · intro hlen m sec h1 h2
    have hne : (jsSplit s ":").length ≠ 3 := by omega
    simp only [parseTime]
    rw [if_neg hne, if_pos hlen, h1, h2, jsMul_num, jsAdd_num]

/-- Witness for C3 at the concrete timestamps `01:02:03.5` (fractional
seconds preserved: the result is `3723.5`). -/
theorem parseTime_segment_rule_witness :
    parseTime "01:02:03.5" = JSNum.num (1 * 3600 + 2 * 60 + qFrac 7 2) :=
  (parseTime_segment_rule "01:02:03.5").1 (by decide) 1 2 (qFrac 7 2)
    (by decide) (by decide) (by decide)

/-- C9: a timestamp string whose colon-split yields neither exactly 2 nor
exactly 3 segments is converted to `0` (the accumulator's initial value)
rather than failing. -/
theorem parseTime_other_segment_counts (s : String)
    (h2 : (jsSplit s ":").length ≠ 2) (h3 : (jsSplit s ":").length ≠ 3) :
    parseTime s = JSNum.num 0 := by
  simp only [parseTime]
  rw [if_neg h3, if_neg h2]

/-- Witness for C9: a bare number with no colon and a 4-segment timestamp
both map to time `0`. -/
theorem parseTime_other_segment_counts_witness :
    parseTime "42" = JSNum.num 0 ∧ parseTime "00:00:01:000" = JSNum.num 0 :=
  ⟨parseTime_other_segment_counts "42" (by decide) (by decide),
   parseTime_other_segment_counts "00:00:01:000" (by decide) (by decide)⟩

/-- C1: the active-cue lookup returns (the text of) the first cue in
document order whose `[start, end]` interval contains the query time
(`start ≤ t ≤ end` for cues with numeric endpoints), and returns no cue when
no cue matches; in particular, for the overlapping cues `[0,5] → "A"` and
`[2,6] → "B"` of `overlapDoc`, the lookup at `t = 3` returns `"A"`, not
`"B"`. -/
theorem active_cue_first_in_document_order (cues : List SubtitleCue) (t : ℚ) :
    (findActiveCue cues (JSNum.num t) = none ↔
      ∀ c ∈ cues, cueMatches (JSNum.num t) c = false)
    ∧ (∀ c, findActiveCue cues (JSNum.num t) = some c →
        cueMatches (JSNum.num t) c = true ∧
        ∃ pre post, cues = pre ++ c :: post ∧
          ∀ c' ∈ pre, cueMatches (JSNum.num t) c' = false)
    ∧ (∀ (c : SubtitleCue) (a b : ℚ), c.start = JSNum.num a →
        c.«end» = JSNum.num b →
        (cueMatches (JSNum.num t) c = true ↔ a ≤ t ∧ t ≤ b))
    ∧ (parseVTT overlapDoc =
        [⟨JSNum.num 0, JSNum.num 5, "A"⟩, ⟨JSNum.num 2, JSNum.num 6, "B"⟩]
      ∧ activeCueText (parseVTT overlapDoc) (JSNum.num 3) = some "A") := by
  refine ⟨?_, ?_, ?_, by decide, by decide⟩
  · rw [findActiveCue, List.find?_eq_none]
    constructor
    · intro h c hc
      exact Bool.eq_false_iff.mpr (h c hc)
    · intro h c hc
      rw [h c hc]
      simp
  · intro c hc
    exact find?_eq_some_first _ _ _ hc
  · intro c a b ha hb
    rw [cueMatches, ha, hb, Bool.and_eq_true]
    rw [show jsGe (JSNum.num t) (JSNum.num a) = jsLe (JSNum.num a) (JSNum.num t) from rfl]
    rw [jsLe_num_iff, jsLe_num_iff]

/-- Witness for C1: in a one-cue list whose interval `[2,4]` does not
contain `t = 1`, the lookup returns no cue. -/
theorem active_cue_first_in_document_order_witness :
    findActiveCue [⟨JSNum.num 2, JSNum.num 4, "X"⟩] (JSNum.num 1) = none :=
  (active_cue_first_in_document_order [⟨JSNum.num 2, JSNum.num 4, "X"⟩] 1).1.mpr
    (by decide)

/-- C2 counterexample: in the three-block document `malformedDoc` whose
second block has the non-numeric timestamp segment `aa`, the malformed block
is NOT skipped: the parse yields 3 cues (the claim predicts exactly 2), the
middle one being the malformed block's cue. -/
theorem parseVTT_malformed_block_emitted :
    (parseVTT malformedDoc).length = 3 ∧
    (parseVTT malformedDoc).map SubtitleCue.text = ["A", "B", "C"] :=
  ⟨by decide, by decide⟩

/-- C2 (amended): a block with a non-numeric timestamp segment is not
dropped; it is emitted as a cue whose malformed endpoint is NaN, parsing
does not raise, and the surrounding well-formed blocks still parse, so the
3-block document yields 3 cues.  Since every JS comparison with NaN is
false, the malformed cue can never become the active cue. -/
theorem parseVTT_malformed_block_inert :
    parseVTT malformedDoc =
      [⟨JSNum.num 1, JSNum.num 2, "A"⟩, ⟨JSNum.nan, JSNum.num 4, "B"⟩,
       ⟨JSNum.num 5, JSNum.num 6, "C"⟩]
    ∧ ∀ t : JSNum,
        cueMatches t ⟨JSNum.nan, JSNum.num 4, "B"⟩ = false := by
  refine ⟨by decide, ?_⟩
  intro t
  cases t with
  | nan => rfl
  | inf b => cases b <;> rfl
  | num q => rfl

/-- C7 counterexample: the single block of `invertedDoc` has
`start = 5 > 1 = end`; the parser emits it anyway (the claim predicts it is
rejected or dropped), so not every emitted cue satisfies `end > start`. -/
theorem parseVTT_emits_end_before_start :
    parseVTT invertedDoc = [⟨JSNum.num 5, JSNum.num 1, "hello"⟩] ∧
    jsLt (JSNum.num 1) (JSNum.num 5) = true :=
  ⟨by decide, by decide⟩

/-- C7 (amended): the parser performs no `end > start` validation — a block
whose end timestamp does not exceed its start is emitted with exactly the
parsed timestamps (parsing is a total function, so it cannot crash); such an
inverted cue can never be the active cue, since no time is both `≥ 5` and
`≤ 1`. -/
theorem parseVTT_inverted_cue_unvalidated :
    parseVTT invertedDoc = [⟨JSNum.num 5, JSNum.num 1, "hello"⟩]
    ∧ ∀ t : ℚ,
        cueMatches (JSNum.num t) ⟨JSNum.num 5, JSNum.num 1, "hello"⟩ = false := by
  refine ⟨by decide, ?_⟩
  intro t
  rw [cueMatches]
  rw [show jsGe (JSNum.num t) (JSNum.num 5) = jsLe (JSNum.num 5) (JSNum.num t) from rfl]
  cases hle : jsLe (JSNum.num 5) (JSNum.num t) with
  | false => rw [Bool.false_and]
  | true =>
    have h5 : (5 : ℚ) ≤ t := (jsLe_num_iff 5 t).mp hle
    have h1 : ¬ (t ≤ 1) := by linarith
    have : jsLe (JSNum.num t) (JSNum.num 1) = false :=
      Bool.eq_false_iff.mpr (fun hc => h1 ((jsLe_num_iff t 1).mp hc))
    rw [this, Bool.and_false]

theorem kvGet_kvSet_self (kv : List (String × String)) (k v : String) :
    kvGet (kvSet kv k v) k = some v := by
  unfold kvGet kvSet
  rw [List.find?_cons_of_pos _ (by simp)]
  rfl

theorem find?_filter_ne (kv : List (String × String)) (k k' : String)
    (h : k ≠ k') :
    (kv.filter (fun p => !(p.1 == k))).find? (fun p => p.1 == k') =
      kv.find? (fun p => p.1 == k') := by
  induction kv with
  | nil => rfl
  | cons p rest ih =>
    by_cases hp : p.1 = k
    · rw [List.filter_cons, if_neg (by simp [hp]), ih,
        List.find?_cons_of_neg _ (by simp [hp, h])]
    · rw [List.filter_cons, if_pos (by simp [hp])]
      by_cases hq : p.1 = k'
      · rw [List.find?_cons_of_pos _ (by simp [hq]),
          List.find?_cons_of_pos _ (by simp [hq])]
      · rw [List.find?_cons_of_neg _ (by simp [hq]),
          List.find?_cons_of_neg _ (by simp [hq]), ih]

theorem kvGet_kvSet_ne (kv : List (String × String)) (k k' v : String)
    (h : k ≠ k') : kvGet (kvSet kv k v) k' = kvGet kv k' := by
  unfold kvGet kvSet
  rw [List.find?_cons_of_neg _ (by simp [h]), find?_filter_ne kv k k' h]

theorem kvCount_kvSet_self (kv : List (String × String)) (k v : String) :
    kvCount (kvSet kv k v) k = 1 := by
  unfold kvCount kvSet
  rw [List.filter_cons, if_pos (by simp), List.filter_filter]
  simp

theorem rowKeyMatches_self (u a : String) (e : ℤ) (ts : JSNum) :
    rowKeyMatches u a e ⟨u, a, e, ts⟩ = true := by
  simp [rowKeyMatches]

theorem rowKeyMatches_of_both (x r : ProgressRow) (u a : String) (e : ℤ)
    (h1 : rowKeyMatches r.user_id r.anime_id r.episode_index x = true)
    (h2 : rowKeyMatches u a e x = true) : rowKeyMatches u a e r = true := by
  simp only [rowKeyMatches, Bool.and_eq_true, beq_iff_eq] at h1 h2 ⊢
  exact ⟨⟨h1.1.1 ▸ h2.1.1, h1.1.2 ▸ h2.1.2⟩, h1.2 ▸ h2.2⟩

theorem find?_map_replace (K : ProgressRow → Bool) (r : ProgressRow)
    (hK : K r = true) (t : List ProgressRow) (hany : t.any K = true) :
    (t.map fun x => if K x then r else x).find? K = some r := by
  induction t with
  | nil => simp at hany
  | cons x rest ih =>
    by_cases hx : K x = true
    · rw [List.map_cons, if_pos hx, List.find?_cons_of_pos _ hK]
    · have hrest : rest.any K = true := by
        rcases List.any_eq_true.mp hany with ⟨y, hy, hKy⟩
        rcases List.mem_cons.mp hy with rfl | hy
        · exact absurd hKy hx
        · exact List.any_eq_true.mpr ⟨y, hy, hKy⟩
      rw [List.map_cons, if_neg hx, List.find?_cons_of_neg _ hx, ih hrest]

theorem find?_map_replace_other (Kr Kq : ProgressRow → Bool) (r : ProgressRow)
    (hr : Kq r = false) (himp : ∀ x, Kr x = true → Kq x = false)
    (t : List ProgressRow) :
    (t.map fun x => if Kr x then r else x).find? Kq = t.find? Kq := by
  induction t with
  | nil => rfl
  | cons x rest ih =>
    by_cases hx : Kr x = true
    · have hxq := himp x hx
      rw [List.map_cons, if_pos hx, List.find?_cons_of_neg _ (by simp [hr]),
        List.find?_cons_of_neg _ (by simp [hxq]), ih]
    · rw [List.map_cons, if_neg hx]
      by_cases hq : Kq x = true
      · rw [List.find?_cons_of_pos _ hq, List.find?_cons_of_pos _ hq]
      · rw [List.find?_cons_of_neg _ hq, List.find?_cons_of_neg _ hq, ih]

theorem find?_append_single (K : ProgressRow → Bool) (r : ProgressRow)
    (hK : K r = true) (t : List ProgressRow) (hnone : t.any K = false) :
    (t ++ [r]).find? K = some r := by
  induction t with
  | nil => rw [List.nil_append, List.find?_cons_of_pos _ hK]
  | cons x rest ih =>
    rw [List.any_cons, Bool.or_eq_false_iff] at hnone
    rw [List.cons_append, List.find?_cons_of_neg _ (by simp [hnone.1]),
      ih hnone.2]

theorem find?_append_single_other (K : ProgressRow → Bool) (r : ProgressRow)
    (hr : K r = false) (t : List ProgressRow) :
    (t ++ [r]).find? K = t.find? K := by
  induction t with
  | nil =>
    rw [List.nil_append, List.find?_cons_of_neg _ (by simp [hr])]
  | cons x rest ih =>
    by_cases hq : K x = true
    · rw [List.cons_append, List.find?_cons_of_pos _ hq,
        List.find?_cons_of_pos _ hq]
    · rw [List.cons_append, List.find?_cons_of_neg _ hq,
        List.find?_cons_of_neg _ hq, ih]

theorem tableLookup_upsert_self (t : List ProgressRow) (u a : String) (e : ℤ)
    (ts : JSNum) :
    tableLookup (tableUpsert t ⟨u, a, e, ts⟩) u a e = some ⟨u, a, e, ts⟩ := by
  unfold tableUpsert tableLookup
  dsimp only
  by_cases hany : t.any (rowKeyMatches u a e) = true
  · rw [if_pos hany]
    exact find?_map_replace _ _ (rowKeyMatches_self u a e ts) t hany
  · rw [if_neg hany]
    exact find?_append_single _ _ (rowKeyMatches_self u a e ts) t
      (Bool.eq_false_iff.mpr hany)

theorem tableLookup_upsert_other (t : List ProgressRow) (r : ProgressRow)
    (u a : String) (e : ℤ) (h : rowKeyMatches u a e r = false) :
    tableLookup (tableUpsert t r) u a e = tableLookup t u a e := by
  unfold tableUpsert tableLookup
  by_cases hany :
      t.any (rowKeyMatches r.user_id r.anime_id r.episode_index) = true
  · rw [if_pos hany]
    refine find?_map_replace_other _ _ r h (fun x hx => ?_) t
    cases hq : rowKeyMatches u a e x with
    | false => rfl
    | true =>
      exact absurd (rowKeyMatches_of_both x r u a e hx hq)
        (by rw [h]; exact Bool.false_ne_true)
  · rw [if_neg hany]
    exact find?_append_single_other _ r h t

theorem filter_length_map_replace (K : ProgressRow → Bool) (r : ProgressRow)
    (hK : K r = true) (t : List ProgressRow) :
    ((t.map fun x => if K x then r else x).filter K).length =
      (t.filter K).length := by
  induction t with
  | nil => rfl
  | cons x rest ih =>
    by_cases hx : K x = true
    · rw [List.map_cons, if_pos hx, List.filter_cons, if_pos (by simp [hK]),
        List.filter_cons, if_pos (by simp [hx]), List.length_cons,
        List.length_cons, ih]
    · rw [List.map_cons, if_neg hx, List.filter_cons, if_neg (by simp [hx]),
        List.filter_cons, if_neg (by simp [hx]), ih]

theorem tableCount_upsert_self (t : List ProgressRow) (u a : String) (e : ℤ)
    (ts : JSNum) (hle : tableCount t u a e ≤ 1) :
    tableCount (tableUpsert t ⟨u, a, e, ts⟩) u a e = 1 := by
  unfold tableUpsert tableCount
  dsimp only
  by_cases hany : t.any (rowKeyMatches u a e) = true
  · rw [if_pos hany, filter_length_map_replace _ _ (rowKeyMatches_self u a e ts)]
    rcases List.any_eq_true.mp hany with ⟨x, hx, hKx⟩
    have h1 : 0 < (t.filter (rowKeyMatches u a e)).length :=
      List.length_pos.mpr (List.ne_nil_of_mem (List.mem_filter.mpr ⟨hx, hKx⟩))
    unfold tableCount at hle
    omega
  · rw [if_neg hany, List.filter_append, List.length_append]
    have h0 : t.filter (rowKeyMatches u a e) = [] :=
      List.filter_eq_nil_iff.mpr (fun x hx hc =>
        absurd (List.any_eq_true.mpr ⟨x, hx, hc⟩) hany)
    rw [h0, List.filter_cons, if_pos (by simp [rowKeyMatches_self u a e ts])]
    rfl

theorem storedRecord_save_self (store : ProgressStore) (u a : String) (e : ℤ)
    (v : JSNum) :
    storedRecord (saveProgress store u a e v) u a e = some (writeValue u v) := by
  unfold storedRecord saveProgress writeValue
  by_cases hu : u = devUserId
  · rw [if_pos hu, if_pos hu, if_pos hu]
    dsimp only
    rw [kvGet_kvSet_self]
    rfl
  · rw [if_neg hu, if_neg hu, if_neg hu]
    dsimp only
    rw [tableLookup_upsert_self]
    rfl

theorem storedRecord_save_other_user (store : ProgressStore) (u u' a : String)
    (e : ℤ) (v : JSNum) (h : u ≠ u') :
    storedRecord (saveProgress store u a e v) u' a e =
      storedRecord store u' a e := by
  unfold storedRecord saveProgress
  by_cases hu : u = devUserId
  · have hu' : ¬ (u' = devUserId) := fun hc => h (hu.trans hc.symm)
    rw [if_pos hu, if_neg hu', if_neg hu']
  · by_cases hu' : u' = devUserId
    · rw [if_neg hu, if_pos hu', if_pos hu']
    · rw [if_neg hu, if_neg hu', if_neg hu']
      dsimp only
      rw [tableLookup_upsert_other _ _ _ _ _ (by simp [rowKeyMatches, h])]

theorem recordCount_save_self (store : ProgressStore) (u a : String) (e : ℤ)
    (v : JSNum) (hle : recordCount store u a e ≤ 1) :
    recordCount (saveProgress store u a e v) u a e = 1 := by
  unfold recordCount saveProgress
  by_cases hu : u = devUserId
  · rw [if_pos hu, if_pos hu]
    dsimp only
    exact kvCount_kvSet_self _ _ _
  · rw [if_neg hu, if_neg hu]
    dsimp only
    refine tableCount_upsert_self _ _ _ _ _ ?_
    unfold recordCount at hle
    rw [if_neg hu] at hle
    exact hle

/-- C4: saving position `p` for the key `(user = u1, title = t1, ep = 2)`
and then loading for the same key returns `p` exactly; loading for a key for
which no save has ever occurred (no row in the table) returns `0`. -/
theorem progress_save_load_roundtrip (store : ProgressStore) (p : JSNum) :
    getProgress (saveProgress store "u1" "t1" 2 p) false "u1" "t1" 2 = p
    ∧ (tableLookup store.table "u1" "t1" 2 = none →
        getProgress store false "u1" "t1" 2 = JSNum.num 0) := by
  constructor
  · unfold getProgress saveProgress
    rw [if_neg (by decide : ¬ ("u1" = devUserId))]
    rw [if_neg (by decide : ¬ ("u1" = devUserId)),
      if_neg (by decide : ¬ (false = true)), tableLookup_upsert_self]
  · intro hnone
    unfold getProgress
    rw [if_neg (by decide : ¬ ("u1" = devUserId)),
      if_neg (by decide : ¬ (false = true)), hnone]

/-- Witness for C4: the position `47.3` round-trips exactly, and the load
from the empty store returns `0`. -/
theorem progress_save_load_roundtrip_witness :
    getProgress (saveProgress emptyStore "u1" "t1" 2 (JSNum.num (qFrac 473 10)))
        false "u1" "t1" 2 = JSNum.num (qFrac 473 10)
    ∧ getProgress emptyStore false "u1" "t1" 2 = JSNum.num 0 :=
  ⟨(progress_save_load_roundtrip emptyStore (JSNum.num (qFrac 473 10))).1,
   (progress_save_load_roundtrip emptyStore (JSNum.num (qFrac 473 10))).2
     (by decide)⟩

/-- C5 counterexample: `saveProgress` writes the negative position `-5` and
the non-finite position NaN into the store exactly as passed — nothing is
rejected or clamped to zero before persisting. -/
theorem saveProgress_persists_negative_and_nan :
    storedRecord (saveProgress emptyStore "u1" "t1" 2 (JSNum.num (qFrac (-5) 1)))
        "u1" "t1" 2 = some (Sum.inl (JSNum.num (qFrac (-5) 1)))
    ∧ storedRecord (saveProgress emptyStore "u1" "t1" 2 JSNum.nan) "u1" "t1" 2
        = some (Sum.inl JSNum.nan)
    ∧ qFrac (-5) 1 < 0 :=
  ⟨by decide, by decide, by rw [qFrac_eq _ one_ne_zero]; norm_num⟩

/-- C5 (amended): the progress save operation performs no validation or
clamping whatsoever — every position value, negative and non-finite ones
included, is persisted exactly as passed (the dev-user path stores its
string rendering, every other user's path stores the number itself). -/
theorem saveProgress_no_clamping (store : ProgressStore) (u a : String)
    (e : ℤ) (v : JSNum) :
    storedRecord (saveProgress store u a e v) u a e = some (writeValue u v) :=
  storedRecord_save_self store u a e v

/-- C6: progress records are keyed by the composite
`(userId, subjectId, episodeIndex)`: saves by two distinct users for the
same title and episode land in distinct records (neither overwrites the
other), and for a fixed key a later save overwrites the earlier one,
leaving exactly one record under that key. -/
theorem progress_composite_key_last_write_wins :
    (∀ (store : ProgressStore) (u u' a : String) (e : ℤ) (v v' : JSNum),
      u ≠ u' →
      storedRecord (saveProgress (saveProgress store u a e v) u' a e v') u a e
          = some (writeValue u v)
        ∧ storedRecord (saveProgress (saveProgress store u a e v) u' a e v')
            u' a e = some (writeValue u' v'))
    ∧ (∀ (store : ProgressStore) (u a : String) (e : ℤ) (v1 v2 : JSNum),
      storedRecord (saveProgress (saveProgress store u a e v1) u a e v2) u a e
          = some (writeValue u v2)
        ∧ (recordCount store u a e ≤ 1 →
            recordCount (saveProgress (saveProgress store u a e v1) u a e v2)
              u a e = 1)) := by
  constructor
  · intro store u u' a e v v' hne
    constructor
    · rw [storedRecord_save_other_user _ u' u a e v' hne.symm,
        storedRecord_save_self]
    · rw [storedRecord_save_self]
  · intro store u a e v1 v2
    refine ⟨storedRecord_save_self _ u a e v2, fun hle => ?_⟩
    exact recordCount_save_self _ u a e v2
      (le_of_eq (recordCount_save_self _ u a e v1 hle))

/-- Witness for C6 at concrete users `u1 ≠ u2`: the first user's record
survives the second user's save, and a double save by one user leaves
exactly one record. -/
theorem progress_composite_key_last_write_wins_witness :
    storedRecord (saveProgress (saveProgress emptyStore "u1" "t1" 2
        (JSNum.num 1)) "u2" "t1" 2 (JSNum.num 2)) "u1" "t1" 2
      = some (writeValue "u1" (JSNum.num 1))
    ∧ recordCount (saveProgress (saveProgress emptyStore "u1" "t1" 2
        (JSNum.num 1)) "u1" "t1" 2 (JSNum.num 2)) "u1" "t1" 2 = 1 :=
  ⟨(progress_composite_key_last_write_wins.1 emptyStore "u1" "u2" "t1" 2
      (JSNum.num 1) (JSNum.num 2) (by decide)).1,
   (progress_composite_key_last_write_wins.2 emptyStore "u1" "t1" 2
      (JSNum.num 1) (JSNum.num 2)).2 (by decide)⟩

/-- C8 counterexample: for the dev user with the unreadable stored value
`"abc"` under the progress key, the load operation returns NaN
(`parseFloat("abc")`), not position zero. -/
theorem getProgress_unreadable_value_returns_nan :
    getProgress ⟨[(localProgressKey "t1" 2, "abc")], []⟩ false devUserId "t1" 2
        = JSNum.nan
    ∧ JSNum.nan ≠ JSNum.num 0 :=
  ⟨by decide, by decide⟩

/-- C8 (amended): a failed backend read returns position zero and a key
never written returns zero; an unreadable stored value in the dev/local
path makes `getProgress` return NaN, which the player's restore step then
turns into a seek position of zero — in every case playback falls back to
the start rather than an error propagating out of the player. -/
theorem getProgress_failure_fallback (store : ProgressStore) (u a : String)
    (e : ℤ) :
    (u ≠ devUserId → getProgress store true u a e = JSNum.num 0)
    ∧ (storedRecord store u a e = none →
        getProgress store false u a e = JSNum.num 0)
    ∧ (∀ s, u = devUserId →
        kvGet store.localKV (localProgressKey a e) = some s →
        jsParseFloat s = JSNum.nan →
        restoreSeekTime store false u a e = JSNum.num 0) := by
  refine ⟨?_, ?_, ?_⟩
  · intro hu
    unfold getProgress
    rw [if_neg hu, if_pos rfl]
  · intro hnone
    unfold storedRecord at hnone
    unfold getProgress
    by_cases hu : u = devUserId
    · rw [if_pos hu] at hnone ⊢
      rw [Option.map_eq_none'.mp hnone]
    · rw [if_neg hu] at hnone ⊢
      rw [if_neg (by decide : ¬ (false = true)),
        Option.map_eq_none'.mp hnone]
  · intro s hu hkv hnan
    have hget : getProgress store false u a e
        = if s = "" then JSNum.num 0 else jsParseFloat s := by
      unfold getProgress
      rw [if_pos hu, hkv]
    show (if jsLt (JSNum.num 0) (getProgress store false u a e) = true then
        getProgress store false u a e else JSNum.num 0) = JSNum.num 0
    by_cases hs : s = ""
    · rw [hget, if_pos hs,
        if_neg (by decide : ¬ (jsLt (JSNum.num 0) (JSNum.num 0) = true))]
    · rw [hget, if_neg hs, hnan,
        if_neg (by decide : ¬ (jsLt (JSNum.num 0) JSNum.nan = true))]

/-- Witness for C8: a failed backend read for `u1` returns `0`, and the dev
user's restore over the unreadable stored value `"abc"` seeks to `0`. -/
theorem getProgress_failure_fallback_witness :
    getProgress emptyStore true "u1" "t1" 2 = JSNum.num 0
    ∧ restoreSeekTime ⟨[(localProgressKey "t1" 2, "abc")], []⟩ false devUserId
        "t1" 2 = JSNum.num 0 :=
  ⟨(getProgress_failure_fallback emptyStore "u1" "t1" 2).1 (by decide),
   (getProgress_failure_fallback ⟨[(localProgressKey "t1" 2, "abc")], []⟩
      devUserId "t1" 2).2.2 "abc" rfl (by decide) (by decide)⟩

/-- C10 counterexample: in the `part_004` player the stored sentinel value
`"off"` is not the id of any configured subtitle track, yet it is not
ignored: initialisation applies it and switches the selection to `none`
(subtitles off) instead of keeping the default `some "en"`. -/
theorem subtitle_pref_off_sentinel_applied :
    applySubtitlePrefP4 (some "en") (some "off") = none
    ∧ subtitleTrackIdsP4.contains "off" = false
    ∧ (none : Option String) ≠ some "en" :=
  ⟨by decide, by decide, by decide⟩

/-- C10 (amended): on initialisation a stored subtitle-track id is applied
only when it is a configured track id, and any other unknown stored id is
ignored, keeping the default selection — except that the `part_004` player
additionally honours the sentinel `"off"`, which disables subtitles. -/
theorem subtitle_pref_validation (current : Option String) (s : String) :
    (subtitleTrackIds.contains s = true →
      applySubtitlePref current (some s) = some s)
    ∧ (subtitleTrackIdsP4.contains s = true →
      applySubtitlePrefP4 current (some s) = some s)
    ∧ (subtitleTrackIds.contains s = false →
      applySubtitlePref current (some s) = current)
    ∧ (s ≠ "off" → subtitleTrackIdsP4.contains s = false →
      applySubtitlePrefP4 current (some s) = current)
    ∧ applySubtitlePrefP4 current (some "off") = none := by
  refine ⟨?_, ?_, ?_, ?_, ?_⟩
  · intro h
    have hne : ¬ (s = "") := by
      rintro rfl
      exact absurd h (by decide)
    rw [applySubtitlePref, if_neg hne, if_pos h]
  · intro h
    have hne : ¬ (s = "") := by
      rintro rfl
      exact absurd h (by decide)
    have hoff : ¬ (s = "off") := by
      rintro rfl
      exact absurd h (by decide)
    rw [applySubtitlePrefP4, if_neg hoff, if_neg hne, if_pos h]
  · intro h
    rw [applySubtitlePref]
    by_cases hs : s = ""
    · rw [if_pos hs]
    · rw [if_neg hs,
        if_neg (by intro hc; rw [h] at hc; exact Bool.false_ne_true hc)]
  · intro hoff h
    rw [applySubtitlePrefP4, if_neg hoff]
    by_cases hs : s = ""
    · rw [if_pos hs]
    · rw [if_neg hs,
        if_neg (by intro hc; rw [h] at hc; exact Bool.false_ne_true hc)]
  · rw [applySubtitlePrefP4, if_pos rfl]

/-- Witness for C10: a configured id (`es`) is applied, an unknown id
(`xx`) is ignored by both player variants. -/
theorem subtitle_pref_validation_witness :
    applySubtitlePref none (some "es") = some "es"
    ∧ applySubtitlePrefP4 (some "en") (some "xx") = some "en"
    ∧ applySubtitlePref none (some "xx") = none :=
  ⟨(subtitle_pref_validation none "es").1 (by decide),
   (subtitle_pref_validation (some "en") "xx").2.2.2.1 (by decide) (by decide),
   (subtitle_pref_validation none "xx").2.2.1 (by decide)⟩

end AniMind
